import Mathlib

/-!
Verification of `mcp_playwright_scraper/server.py`: a shallow embedding of the
`ResourceManager` registry, the `Scraper` orchestrator and the
`handle_call_tool` dispatcher, together with proofs of the specified
properties.

Modelling conventions:
* a Python `dict` is an insertion-ordered association list with first-match
  lookup (`dictGet`), in-place assignment (`dictSet`, which appends for a new
  key) and key deletion (`dictRemove`);
* `uuid.uuid4()` is an opaque fresh-token supply; the registry state carries a
  counter `nextId` and the generated resource URI is
  `"scrape://" ++ decimal digits of the counter` (`mkUri`), which models the
  supply's uniqueness contract;
* `datetime.now().isoformat()` is modelled by a `Nat` timestamp supplied to
  each operation that reads the clock;
* the Playwright renderer (`scrape_with_playwright`) and the markdown
  conversion pipeline (`try_pandoc` / `html_to_markdown`) are external
  collaborators and enter the model as function parameters; a renderer
  failure is the pair `(none, none)`;
* the regex `\s` of a Python `str` pattern is modelled by `isSpace`, the
  exact Unicode whitespace class CPython's matcher uses, and `re.IGNORECASE`
  matching of the ASCII pattern literals by folding each content character
  with `pyFold` (ASCII uppercase to lowercase, plus the two non-ASCII
  characters that CPython's case-insensitive matching equates with `i`);
  this reproduces CPython's matching of these patterns on every Unicode
  input.
-/

namespace MCPScraper

/-- First-match lookup in an association list (Python `d.get(k)` / `k in d`). -/
def dictGet {κ α : Type} [DecidableEq κ] : List (κ × α) → κ → Option α
  | [], _ => none
  | (k', v) :: rest, k => if k' = k then some v else dictGet rest k

/-- In-place assignment `d[k] = v`: replaces the first binding of `k`, or
appends a new binding when `k` is absent (Python dict insertion order). -/
def dictSet {κ α : Type} [DecidableEq κ] : List (κ × α) → κ → α → List (κ × α)
  | [], k, v => [(k, v)]
  | (k', v') :: rest, k, v =>
      if k' = k then (k, v) :: rest else (k', v') :: dictSet rest k v

/-- Key deletion `del d[k]`: removes every binding of `k` (a Python dict holds
at most one). -/
def dictRemove {κ α : Type} [DecidableEq κ] (l : List (κ × α)) (k : κ) :
    List (κ × α) :=
  l.filter (fun p => decide (p.1 ≠ k))

/-- Decimal digit characters, for rendering the fresh-token counter. -/
def digitChar (d : Nat) : Char :=
  match d with
  | 0 => '0' | 1 => '1' | 2 => '2' | 3 => '3' | 4 => '4'
  | 5 => '5' | 6 => '6' | 7 => '7' | 8 => '8' | _ => '9'

/-- Fuel-bounded decimal rendering of a natural number. -/
def digitsAux : Nat → Nat → List Char
  | 0, _ => []
  | fuel + 1, n =>
      if n < 10 then [digitChar n]
      else digitsAux fuel (n / 10) ++ [digitChar (n % 10)]

/-- Decimal rendering of a natural number. -/
def natDigits (n : Nat) : List Char := digitsAux (n + 1) n

/-- Decimal parsing, the inverse used to prove the rendering injective. -/
def decodeDigits (a : Nat) (l : List Char) : Nat :=
  l.foldl (fun acc c => 10 * acc + (c.toNat - 48)) a

/-- One stored resource: the value type of `ResourceManager.resources`
(server.py lines 44-49). -/
structure Resource where
  url : String
  content : String
  mime_type : String
  timestamp : Nat
deriving DecidableEq

/-- `ResourceManager.__init__` state (server.py lines 23-25), plus the
counter modelling the `uuid.uuid4()` fresh-token supply. -/
structure ResourceManager where
  resources : List (String × Resource)
  subscriptions : List (String × List String)
  nextId : Nat
deriving DecidableEq

/-- The URI generated for the `nextId`-th resource:
`f"scrape://{resource_id}"` (server.py line 41), with the opaque uuid token
modelled by the counter's decimal rendering. -/
def mkUri (n : Nat) : String := "scrape://" ++ (natDigits n).asString

/-- `ResourceManager.add_resource` (server.py lines 27-54): generate a fresh
URI, store the resource with the current timestamp, return the URI.
`notify_list_changed` is a `pass` and has no state effect. -/
def add_resource (rm : ResourceManager) (url content mime_type : String)
    (now : Nat) : String × ResourceManager :=
  let uri := mkUri rm.nextId
  (uri,
   { rm with
      resources := dictSet rm.resources uri ⟨url, content, mime_type, now⟩
      nextId := rm.nextId + 1 })

/-- `ResourceManager.get_resource` (server.py lines 56-66). -/
def get_resource (rm : ResourceManager) (uri : String) : Option Resource :=
  dictGet rm.resources uri

/-- One entry of the `list_resources` output (server.py lines 75-83). -/
structure ResourceSummary where
  uri : String
  name : String
  description : String
  mimeType : String
deriving DecidableEq

/-- `ResourceManager.list_resources` (server.py lines 68-83). -/
def list_resources (rm : ResourceManager) : List ResourceSummary :=
  rm.resources.map (fun p =>
    ⟨p.1, "Scraped: " ++ p.2.url,
     "Web page scraped on " ++ (natDigits p.2.timestamp).asString,
     p.2.mime_type⟩)

/-- `ResourceManager.subscribe` (server.py lines 85-105): fail when the URI is
not a stored resource; otherwise ensure a subscriber list exists and append
the session id when absent. In-place list mutation is modelled by writing the
resulting list back with `dictSet`. -/
def subscribe (rm : ResourceManager) (uri session_id : String) :
    Bool × ResourceManager :=
  if (dictGet rm.resources uri).isNone then (false, rm)
  else
    let subs0 :=
      match dictGet rm.subscriptions uri with
      | none => ([] : List String)
      | some l => l
    let subs1 := if session_id ∈ subs0 then subs0 else subs0 ++ [session_id]
    (true, { rm with subscriptions := dictSet rm.subscriptions uri subs1 })

/-- `ResourceManager.unsubscribe` (server.py lines 107-128): fail when no
subscription entry exists; otherwise remove the session id when present
(`list.remove` drops the first occurrence) and delete the entry when the
remaining list is empty. -/
def unsubscribe (rm : ResourceManager) (uri session_id : String) :
    Bool × ResourceManager :=
  match dictGet rm.subscriptions uri with
  | none => (false, rm)
  | some subs =>
      if session_id ∈ subs then
        let subs' := subs.erase session_id
        if subs' = [] then
          (true, { rm with subscriptions := dictRemove rm.subscriptions uri })
        else
          (true, { rm with subscriptions := dictSet rm.subscriptions uri subs' })
      else (true, rm)

/-- `ResourceManager.update_resource` (server.py lines 130-152): fail when the
URI is absent; otherwise replace content and MIME type and refresh the
timestamp. `notify_resource_updated` is a `pass` and has no state effect. -/
def update_resource (rm : ResourceManager) (uri content mime_type : String)
    (now : Nat) : Bool × ResourceManager :=
  match dictGet rm.resources uri with
  | none => (false, rm)
  | some r =>
      (true,
       { rm with
          resources := dictSet rm.resources uri
            { r with content := content, mime_type := mime_type,
                     timestamp := now } })

/-- `ResourceManager.cleanup` (server.py lines 171-176): clear both maps. The
uuid supply is unaffected. -/
def cleanup (rm : ResourceManager) : ResourceManager :=
  { rm with resources := [], subscriptions := [] }

/-- The freshly constructed registry (server.py line 179). -/
def initRM : ResourceManager := { resources := [], subscriptions := [], nextId := 0 }

/-- Python `str.startswith` on character sequences. -/
def listStartsWith : List Char → List Char → Bool
  | [], _ => true
  | _ :: _, [] => false
  | p :: ps, c :: cs => p == c && listStartsWith ps cs

/-- Python `s.startswith(pre)`. -/
def strStartsWith (s pre : String) : Bool := listStartsWith pre.data s.data

/-- Strip a literal from the front of a character sequence, for regex-literal
matching. -/
def stripPfx : List Char → List Char → Option (List Char)
  | [], s => some s
  | _ :: _, [] => none
  | p :: ps, c :: cs => if p == c then stripPfx ps cs else none

/-- The whitespace class of the regex `\s` in a Python `str` pattern
(CPython's `Py_UNICODE_ISSPACE`): the ASCII whitespace characters, the
separator controls U+001C-U+001F, and the Unicode space characters. -/
def isSpace (c : Char) : Bool :=
  let n := c.toNat
  (0x09 ≤ n && n ≤ 0x0D) || (0x1C ≤ n && n ≤ 0x20) || n = 0x85 || n = 0xA0 ||
    n = 0x1680 || (0x2000 ≤ n && n ≤ 0x200A) || n = 0x2028 || n = 0x2029 ||
    n = 0x202F || n = 0x205F || n = 0x3000

/-- Folding of one content character for matching the `html_patterns`
literals under `re.IGNORECASE` (Unicode mode): ASCII uppercase letters fold
to lowercase, and LATIN CAPITAL LETTER I WITH DOT ABOVE (U+0130, whose
simple lowercase mapping is `i`) and LATIN SMALL LETTER DOTLESS I (U+0131,
case-equivalent to `i` in CPython's matcher) both fold to `i`. These are the
only characters beyond `A`-`Z` that CPython's case-insensitive matching
equates with any character of the patterns. -/
def pyFold (c : Char) : Char :=
  if 0x41 ≤ c.toNat && c.toNat ≤ 0x5A then Char.toLower c
  else if c = '\u0130' || c = '\u0131' then 'i'
  else c

/-- Match `\s+lit` at the front of a character sequence: at least one
whitespace character, all following whitespace, then the literal (the literals
used never begin with whitespace, so greedy matching is exact). -/
def spacesThen (lit : List Char) : List Char → Bool
  | [] => false
  | c :: rest => isSpace c && listStartsWith lit (rest.dropWhile isSpace)

/-- Match the regex `<!DOCTYPE\s+html` at the front (already lowercased). -/
def matchDoctypeAt (s : List Char) : Bool :=
  match stripPfx "<!doctype".data s with
  | some r => spacesThen "html".data r
  | none => false

/-- Match the regex `<a\s+href=` at the front (already lowercased). -/
def matchAHrefAt (s : List Char) : Bool :=
  match stripPfx "<a".data s with
  | some r => spacesThen "href=".data r
  | none => false

/-- `re.search`: does the pattern match at some position? -/
def anySuffix (p : List Char → Bool) : List Char → Bool
  | [] => p []
  | c :: rest => p (c :: rest) || anySuffix p rest

/-- Substring containment of a literal pattern. -/
def containsLit (lit : List Char) (s : List Char) : Bool :=
  anySuffix (listStartsWith lit) s

/-- `Scraper.looks_like_html` (server.py lines 319-335): search the content,
case-insensitively, for any of the seven `html_patterns`. -/
def looks_like_html (content : String) : Bool :=
  let l := content.data.map pyFold
  anySuffix matchDoctypeAt l
    || containsLit "<html".data l
    || containsLit "<head".data l
    || containsLit "<body".data l
    || containsLit "<div".data l
    || containsLit "<p>".data l
    || anySuffix matchAHrefAt l

/-- The claim's classification predicate, stated for comparison with
`looks_like_html`: exactly the six patterns doctype, html tag, head tag,
body tag, div tag and anchor tag (it omits the source's `<p>` pattern). -/
def claimed_looks_like_html (content : String) : Bool :=
  let l := content.data.map pyFold
  anySuffix matchDoctypeAt l
    || containsLit "<html".data l
    || containsLit "<head".data l
    || containsLit "<body".data l
    || containsLit "<div".data l
    || anySuffix matchAHrefAt l

/-- URL normalization at the top of `Scraper.scrape` (server.py lines
299-301). -/
def normalizeUrl (url : String) : String :=
  if strStartsWith url "http://" || strStartsWith url "https://" then url
  else "https://" ++ url

/-- `Scraper.scrape` (server.py lines 291-317). The renderer and the markdown
conversion are external collaborators passed as functions; the renderer's
failure signal is a `none` content (Python returns `(None, None)`), and the
`if not content` guard also treats an empty string as failure. -/
def scrape (render : String → Option String × Option String)
    (html_to_markdown : String → String) (url : String) : String :=
  let url' := normalizeUrl url
  match render url' with
  | (none, _) => "# Failed to retrieve content from " ++ url'
  | (some content, mime_type) =>
      if content = "" then "# Failed to retrieve content from " ++ url'
      else if (match mime_type with
               | some m => strStartsWith m "text/html"
               | none => looks_like_html content) then
        html_to_markdown content
      else "```\n" ++ content ++ "\n```"

/-- Result of a `call_tool` request: either a list of returned text contents
or a raised `ValueError`. -/
inductive CallToolResult where
  | texts (msgs : List String)
  | raised (msg : String)
deriving DecidableEq

/-- `handle_call_tool` (server.py lines 511-547): validate the arguments, run
`Scraper.scrape`, store the artifact via `add_resource` with MIME type
`text/markdown`, and return the markdown as the textual result. `verify_ssl`
only configures the renderer collaborator and is absorbed by the `render`
parameter. -/
def handle_call_tool (render : String → Option String × Option String)
    (html_to_markdown : String → String) (rm : ResourceManager) (name : String)
    (arguments : Option (List (String × String))) (now : Nat) :
    CallToolResult × ResourceManager :=
  if name = "scrape_to_markdown" then
    match arguments with
    | none => (CallToolResult.texts ["URL is required"], rm)
    | some args =>
        match dictGet args "url" with
        | none => (CallToolResult.texts ["URL is required"], rm)
        | some url =>
            let markdown := scrape render html_to_markdown url
            let (_, rm') := add_resource rm url markdown "text/markdown" now
            (CallToolResult.texts [markdown], rm')
  else (CallToolResult.raised ("Unknown tool: " ++ name), rm)

/-- One registry operation, for stating invariants over operation
sequences. -/
inductive Op where
  | add (url content mime : String) (t : Nat)
  | get (uri : String)
  | list
  | sub (uri sid : String)
  | unsub (uri sid : String)
  | update (uri content mime : String) (t : Nat)
  | cleanup
deriving DecidableEq

/-- State effect of one registry operation (`get` and `list` are pure
reads). -/
def applyOp (rm : ResourceManager) : Op → ResourceManager
  | Op.add url content mime t => (add_resource rm url content mime t).2
  | Op.get _ => rm
  | Op.list => rm
  | Op.sub uri sid => (subscribe rm uri sid).2
  | Op.unsub uri sid => (unsubscribe rm uri sid).2
  | Op.update uri content mime t => (update_resource rm uri content mime t).2
  | Op.cleanup => cleanup rm

/-- Run a sequence of registry operations. -/
def runOps (rm : ResourceManager) (ops : List Op) : ResourceManager :=
  ops.foldl applyOp rm

/-- No subscription entry maps to an empty subscriber list. -/
def SubsNonempty (rm : ResourceManager) : Prop :=
  ∀ uri subs, dictGet rm.subscriptions uri = some subs → subs ≠ []

/-- Every subscription entry's subscriber list is duplicate-free. -/
def SubsNodup (rm : ResourceManager) : Prop :=
  ∀ uri subs, dictGet rm.subscriptions uri = some subs → subs.Nodup

/-- A write operation for the add/update trace of claim C3. -/
inductive WOp where
  | wadd (url content mime : String) (t : Nat)
  | wupd (uri content mime : String) (t : Nat)
deriving DecidableEq

/-- Trace state for claim C3: the registry, the identities returned by the
`add` calls in order, and a ghost map recording the content most recently
written for each identity. -/
structure TraceState where
  rm : ResourceManager
  outs : List String
  written : List (String × String)

/-- One step of the add/update trace, recording the returned identity of an
`add` and the last written content of each identity. -/
def wstep (s : TraceState) : WOp → TraceState
  | WOp.wadd url content mime t =>
      let p := add_resource s.rm url content mime t
      ⟨p.2, s.outs ++ [p.1], dictSet s.written p.1 content⟩
  | WOp.wupd uri content mime t =>
      let p := update_resource s.rm uri content mime t
      ⟨p.2, s.outs, if p.1 then dictSet s.written uri content else s.written⟩

/-- Run an add/update trace from the fresh registry. -/
def wrun (ops : List WOp) : TraceState :=
  ops.foldl wstep ⟨initRM, [], []⟩

/-- Induction invariant for the add/update trace: the returned identities are
distinct and come from the counter, every stored key comes from the counter,
the ghost last-written map agrees with the stored contents, and every
returned identity is still stored. -/
def TraceInv (s : TraceState) : Prop :=
  s.outs.Nodup ∧
  (∀ uri, uri ∈ s.outs → ∃ i, i < s.rm.nextId ∧ uri = mkUri i) ∧
  (∀ uri r, dictGet s.rm.resources uri = some r →
    ∃ i, i < s.rm.nextId ∧ uri = mkUri i) ∧
  (∀ uri, dictGet s.written uri =
    Option.map Resource.content (dictGet s.rm.resources uri)) ∧
  (∀ uri, uri ∈ s.outs → dictGet s.rm.resources uri ≠ none)

/-! ### Association-list laws -/

theorem dictGet_dictSet {κ α : Type} [DecidableEq κ] (l : List (κ × α))
    (k x : κ) (v : α) :
    dictGet (dictSet l k v) x = if k = x then some v else dictGet l x := by
  induction l with
  | nil => simp [dictSet, dictGet]
  | cons hd tl ih =>
    obtain ⟨k', v'⟩ := hd
    by_cases h1 : k' = k
    · subst h1
      by_cases h2 : k' = x
      · subst h2; simp [dictSet, dictGet]
      · simp [dictSet, dictGet, h2]
    · by_cases h2 : k' = x
      · subst h2
        have hkx : ¬ k = k' := fun h => h1 h.symm
        simp [dictSet, dictGet, h1, hkx]
      · simp [dictSet, dictGet, h1, h2, ih]

theorem dictSet_eq_of_get {κ α : Type} [DecidableEq κ] {l : List (κ × α)}
    {k : κ} {v : α} (h : dictGet l k = some v) : dictSet l k v = l := by
  induction l with
  | nil => simp [dictGet] at h
  | cons hd tl ih =>
    obtain ⟨k', v'⟩ := hd
    by_cases h1 : k' = k
    · subst h1
      simp [dictGet] at h
      simp [dictSet, h]
    · simp only [dictGet, if_neg h1] at h
      simp [dictSet, h1, ih h]

theorem dictSet_fresh {κ α : Type} [DecidableEq κ] {l : List (κ × α)} {k : κ}
    (v : α) (h : dictGet l k = none) : dictSet l k v = l ++ [(k, v)] := by
  induction l with
  | nil => simp [dictSet]
  | cons hd tl ih =>
    obtain ⟨k', v'⟩ := hd
    by_cases h1 : k' = k
    · subst h1; simp [dictGet] at h
    · simp only [dictGet, if_neg h1] at h
      simp [dictSet, h1, ih h]

theorem dictGet_dictRemove {κ α : Type} [DecidableEq κ] (l : List (κ × α))
    (k x : κ) :
    dictGet (dictRemove l k) x = if k = x then none else dictGet l x := by
  induction l with
  | nil => simp [dictRemove, dictGet]
  | cons hd tl ih =>
    obtain ⟨k', v'⟩ := hd
    by_cases h1 : k' = k
    · subst h1
      by_cases h2 : k' = x
      · subst h2
        simpa [dictRemove, dictGet, List.filter] using ih
      · simpa [dictRemove, dictGet, List.filter, h2] using ih
    · by_cases h2 : k' = x
      · subst h2
        have hkx : ¬ k = k' := fun h => h1 h.symm
        simp [dictRemove, dictGet, List.filter, h1, hkx]
      · simpa [dictRemove, dictGet, List.filter, h1, h2] using ih

/-! ### Decimal rendering of the fresh-token counter is injective -/

theorem decodeDigits_append (a : Nat) (l1 l2 : List Char) :
    decodeDigits a (l1 ++ l2) = decodeDigits (decodeDigits a l1) l2 :=
  List.foldl_append ..

theorem digitChar_toNat {d : Nat} (h : d < 10) : (digitChar d).toNat = 48 + d := by
  interval_cases d <;> rfl

theorem decode_digitsAux (fuel : Nat) : ∀ n a, n < fuel →
    decodeDigits a (digitsAux fuel n) =
      a * 10 ^ (digitsAux fuel n).length + n := by
  induction fuel with
  | zero => intro n a h; omega
  | succ fuel ih =>
    intro n a h
    by_cases h10 : n < 10
    · have hd : digitsAux (fuel + 1) n = [digitChar n] := by
        rw [show digitsAux (fuel + 1) n =
            (if n < 10 then [digitChar n]
             else digitsAux fuel (n / 10) ++ [digitChar (n % 10)]) from rfl,
          if_pos h10]
      rw [hd]
      simp only [decodeDigits, List.foldl_cons, List.foldl_nil,
        digitChar_toNat h10, List.length_cons, List.length_nil, pow_succ,
        pow_zero, one_mul]
      omega
    · have hdiv : n / 10 < fuel := by
        have hlt : n / 10 < n := Nat.div_lt_self (by omega) (by omega)
        omega
      have hmod : n % 10 < 10 := Nat.mod_lt _ (by omega)
      have hd : digitsAux (fuel + 1) n =
          digitsAux fuel (n / 10) ++ [digitChar (n % 10)] := by
        rw [show digitsAux (fuel + 1) n =
            (if n < 10 then [digitChar n]
             else digitsAux fuel (n / 10) ++ [digitChar (n % 10)]) from rfl,
          if_neg h10]
      rw [hd, decodeDigits_append, ih (n / 10) a hdiv]
      simp only [decodeDigits, List.foldl_cons, List.foldl_nil,
        digitChar_toNat hmod, List.length_append, List.length_cons,
        List.length_nil, pow_succ, pow_zero, one_mul]
      have hq : a * (10 ^ (digitsAux fuel (n / 10)).length * 10) =
          a * 10 ^ (digitsAux fuel (n / 10)).length * 10 := by ring
      rw [hq]
      generalize a * 10 ^ (digitsAux fuel (n / 10)).length = q
      omega

theorem decode_natDigits (n : Nat) : decodeDigits 0 (natDigits n) = n := by
  have h := decode_digitsAux (n + 1) n 0 (by omega)
  simpa [natDigits] using h

theorem natDigits_inj {m n : Nat} (h : natDigits m = natDigits n) : m = n := by
  have hm := decode_natDigits m
  rw [h, decode_natDigits n] at hm
  omega

theorem mkUri_inj {m n : Nat} (h : mkUri m = mkUri n) : m = n := by
  have hdata := congrArg String.data h
  simp only [mkUri, String.data_append] at hdata
  have hlist : (natDigits m).asString.data = (natDigits n).asString.data :=
    List.append_cancel_left hdata
  exact natDigits_inj hlist

/-! ### Small list helpers -/

theorem nodup_concat_of {α : Type} {l : List α} {a : α} (h : l.Nodup)
    (ha : a ∉ l) : (l ++ [a]).Nodup := by
  simp [List.nodup_append, h, ha]

/-- Subscribing when the session id is already registered is a no-op. -/
theorem subscribe_noop {rm : ResourceManager} {uri sid : String}
    (r : Resource) (subs : List String)
    (h : dictGet rm.resources uri = some r)
    (hs : dictGet rm.subscriptions uri = some subs) (hmem : sid ∈ subs) :
    subscribe rm uri sid = (true, rm) := by
  simp [subscribe, h, hs, hmem, dictSet_eq_of_get hs]

/-! ### Claims -/

/-- C4: for every registry state and identity, `update_resource` returns
failure and leaves the registry completely unchanged when the identity is not
in the resource map; when it is present it returns success, replaces that
resource's content and MIME type with the given values and refreshes its
timestamp to the call's current time. -/
theorem C4_update_contract (rm : ResourceManager)
    (uri content mime_type : String) (now : Nat) :
    (dictGet rm.resources uri = none →
      update_resource rm uri content mime_type now = (false, rm)) ∧
    (∀ r, dictGet rm.resources uri = some r →
      update_resource rm uri content mime_type now =
        (true,
         { rm with
            resources := dictSet rm.resources uri
              { r with content := content, mime_type := mime_type,
                       timestamp := now } })) := by
  constructor
  · intro h; simp [update_resource, h]
  · intro r h; simp [update_resource, h]

theorem C4_update_contract_witness :
    update_resource initRM "scrape://0" "c" "m" 5 = (false, initRM) ∧
    update_resource
      { resources := [("scrape://0", ⟨"u", "c0", "m0", 1⟩)],
        subscriptions := [], nextId := 1 } "scrape://0" "c" "m" 5 =
      (true,
       { resources := [("scrape://0", ⟨"u", "c", "m", 5⟩)],
         subscriptions := [], nextId := 1 }) :=
  ⟨(C4_update_contract initRM "scrape://0" "c" "m" 5).1 (by decide),
   (C4_update_contract
      { resources := [("scrape://0", ⟨"u", "c0", "m0", 1⟩)],
        subscriptions := [], nextId := 1 } "scrape://0" "c" "m" 5).2
     ⟨"u", "c0", "m0", 1⟩ (by decide)⟩

/-- C5: `subscribe` returns failure exactly when the identity is not in the
resource map; when it is present it returns success, registers the session id
in the identity's subscriber list, and subscribing the same session id again
returns success with exactly the same registry state. -/
theorem C5_subscribe_contract (rm : ResourceManager) (uri sid : String) :
    ((subscribe rm uri sid).1 = false ↔ dictGet rm.resources uri = none) ∧
    (dictGet rm.resources uri ≠ none →
      (subscribe rm uri sid).1 = true ∧
      (∃ subs, dictGet (subscribe rm uri sid).2.subscriptions uri = some subs ∧
        sid ∈ subs) ∧
      subscribe (subscribe rm uri sid).2 uri sid = subscribe rm uri sid) := by
  cases h : dictGet rm.resources uri with
  | none =>
    exact ⟨by simp [subscribe, h], fun hne => absurd rfl hne⟩
  | some r =>
    refine ⟨by simp [subscribe, h], fun _ => ?_⟩
    cases hs : dictGet rm.subscriptions uri with
    | none =>
      have hres : subscribe rm uri sid =
          (true,
           { rm with subscriptions := dictSet rm.subscriptions uri [sid] }) := by
        simp [subscribe, h, hs]
      refine ⟨by simp [hres], ?_, ?_⟩
      · refine ⟨[sid], ?_, by simp⟩
        rw [hres]
        simp [dictGet_dictSet]
      · rw [hres]
        exact subscribe_noop r [sid] h (by simp [dictGet_dictSet]) (by simp)
    | some l =>
      by_cases hmem : sid ∈ l
      · have hres : subscribe rm uri sid = (true, rm) :=
          subscribe_noop r l h hs hmem
        exact ⟨by simp [hres], ⟨l, by simp [hres, hs], hmem⟩, by simp [hres]⟩
      · have hres : subscribe rm uri sid =
            (true,
             { rm with
                subscriptions := dictSet rm.subscriptions uri (l ++ [sid]) }) := by
          simp [subscribe, h, hs, hmem]
        refine ⟨by simp [hres], ?_, ?_⟩
        · refine ⟨l ++ [sid], ?_, by simp⟩
          rw [hres]
          simp [dictGet_dictSet]
        · rw [hres]
          exact subscribe_noop r (l ++ [sid]) h (by simp [dictGet_dictSet])
            (by simp)

theorem C5_subscribe_contract_witness :
    (subscribe initRM "scrape://0" "s1").1 = false ∧
    (subscribe
      { resources := [("scrape://0", ⟨"u", "c", "m", 0⟩)],
        subscriptions := [], nextId := 1 } "scrape://0" "s1").1 = true ∧
    subscribe
      (subscribe
        { resources := [("scrape://0", ⟨"u", "c", "m", 0⟩)],
          subscriptions := [], nextId := 1 } "scrape://0" "s1").2
      "scrape://0" "s1" =
      subscribe
        { resources := [("scrape://0", ⟨"u", "c", "m", 0⟩)],
          subscriptions := [], nextId := 1 } "scrape://0" "s1" :=
  ⟨(C5_subscribe_contract initRM "scrape://0" "s1").1.mpr (by decide),
   ((C5_subscribe_contract
      { resources := [("scrape://0", ⟨"u", "c", "m", 0⟩)],
        subscriptions := [], nextId := 1 } "scrape://0" "s1").2
     (by decide)).1,
   ((C5_subscribe_contract
      { resources := [("scrape://0", ⟨"u", "c", "m", 0⟩)],
        subscriptions := [], nextId := 1 } "scrape://0" "s1").2
     (by decide)).2.2⟩

/-- C6: `unsubscribe` returns failure exactly when no subscription entry
exists for the identity; when an entry exists it returns success — as a no-op
leaving the state unchanged when the session id is not in the entry, and
otherwise removing the session id and, when the remaining subscriber list is
empty, removing the entry entirely. -/
theorem C6_unsubscribe_contract (rm : ResourceManager) (uri sid : String) :
    ((unsubscribe rm uri sid).1 = false ↔
      dictGet rm.subscriptions uri = none) ∧
    (∀ subs, dictGet rm.subscriptions uri = some subs →
      (sid ∉ subs → unsubscribe rm uri sid = (true, rm)) ∧
      (sid ∈ subs →
        unsubscribe rm uri sid =
          (true,
           { rm with subscriptions :=
              if subs.erase sid = [] then dictRemove rm.subscriptions uri
              else dictSet rm.subscriptions uri (subs.erase sid) }))) := by
  cases h : dictGet rm.subscriptions uri with
  | none =>
    exact ⟨by simp [unsubscribe, h], fun subs hs => Option.noConfusion hs⟩
  | some subs0 =>
    constructor
    · by_cases hmem : sid ∈ subs0
      · by_cases hnil : subs0.erase sid = []
        · simp [unsubscribe, h, hmem, hnil]
        · simp [unsubscribe, h, hmem, hnil]
      · simp [unsubscribe, h, hmem]
    · intro subs hs
      injection hs with hs
      subst hs
      constructor
      · intro hnot; simp [unsubscribe, h, hnot]
      · intro hmem
        by_cases hnil : subs0.erase sid = []
        · simp [unsubscribe, h, hmem, hnil]
        · simp [unsubscribe, h, hmem, hnil]

theorem C6_unsubscribe_contract_witness :
    (unsubscribe initRM "scrape://0" "s1").1 = false ∧
    unsubscribe
      { resources := [("scrape://0", ⟨"u", "c", "m", 0⟩)],
        subscriptions := [("scrape://0", ["s1"])], nextId := 1 }
      "scrape://0" "s2" =
      (true,
       { resources := [("scrape://0", ⟨"u", "c", "m", 0⟩)],
         subscriptions := [("scrape://0", ["s1"])], nextId := 1 }) ∧
    unsubscribe
      { resources := [("scrape://0", ⟨"u", "c", "m", 0⟩)],
        subscriptions := [("scrape://0", ["s1"])], nextId := 1 }
      "scrape://0" "s1" =
      (true,
       { resources := [("scrape://0", ⟨"u", "c", "m", 0⟩)],
         subscriptions :=
           if (["s1"].erase "s1") = [] then
             dictRemove [("scrape://0", ["s1"])] "scrape://0"
           else dictSet [("scrape://0", ["s1"])] "scrape://0" (["s1"].erase "s1"),
         nextId := 1 }) :=
  ⟨(C6_unsubscribe_contract initRM "scrape://0" "s1").1.mpr (by decide),
   ((C6_unsubscribe_contract
      { resources := [("scrape://0", ⟨"u", "c", "m", 0⟩)],
        subscriptions := [("scrape://0", ["s1"])], nextId := 1 }
      "scrape://0" "s2").2 ["s1"] (by decide)).1 (by decide),
   ((C6_unsubscribe_contract
      { resources := [("scrape://0", ⟨"u", "c", "m", 0⟩)],
        subscriptions := [("scrape://0", ["s1"])], nextId := 1 }
      "scrape://0" "s1").2 ["s1"] (by decide)).2 (by decide)⟩

/-- C8: calling the scrape tool with arguments missing the required `url`
field yields the usage-error result `"URL is required"`, surfaced to the
caller as the call's result, and leaves the registry (in particular its
resource map) completely unchanged. -/
theorem C8_missing_url_usage_error
    (render : String → Option String × Option String)
    (html_to_markdown : String → String) (rm : ResourceManager)
    (args : Option (List (String × String))) (now : Nat)
    (h : args = none ∨ ∃ l, args = some l ∧ dictGet l "url" = none) :
    handle_call_tool render html_to_markdown rm "scrape_to_markdown" args now =
      (CallToolResult.texts ["URL is required"], rm) := by
  rcases h with h | ⟨l, hl, hurl⟩
  · subst h; simp [handle_call_tool]
  · subst hl; simp [handle_call_tool, hurl]

theorem C8_missing_url_usage_error_witness :
    handle_call_tool (fun _ => (none, none)) (fun c => c) initRM
      "scrape_to_markdown" none 3 =
      (CallToolResult.texts ["URL is required"], initRM) ∧
    handle_call_tool (fun _ => (none, none)) (fun c => c) initRM
      "scrape_to_markdown" (some [("verify_ssl", "true")]) 3 =
      (CallToolResult.texts ["URL is required"], initRM) :=
  ⟨C8_missing_url_usage_error (fun _ => (none, none)) (fun c => c) initRM
     none 3 (Or.inl rfl),
   C8_missing_url_usage_error (fun _ => (none, none)) (fun c => c) initRM
     (some [("verify_ssl", "true")]) 3
     (Or.inr ⟨[("verify_ssl", "true")], rfl, by decide⟩)⟩

/-- C10: when the renderer succeeds but returns empty-string content — with
or without a content-kind hint — `scrape` treats it exactly as a renderer
failure: classification and conversion are skipped (the result does not
depend on the converter) and the failure artifact is returned. -/
theorem C10_empty_content_failure
    (render : String → Option String × Option String)
    (html_to_markdown : String → String) (url : String) (m? : Option String)
    (h : render (normalizeUrl url) = (some "", m?)) :
    scrape render html_to_markdown url =
      "# Failed to retrieve content from " ++ normalizeUrl url := by
  simp [scrape, h]

theorem C10_empty_content_failure_witness :
    scrape (fun _ => (some "", some "text/html")) (fun c => "MD:" ++ c)
      "example.com" =
      "# Failed to retrieve content from " ++ normalizeUrl "example.com" :=
  C10_empty_content_failure (fun _ => (some "", some "text/html"))
    (fun c => "MD:" ++ c) "example.com" (some "text/html") rfl

/-- C2: when the renderer signals failure (no content retrievable), `scrape`
does not raise but returns the artifact
`"# Failed to retrieve content from {url}"` with the normalized URL, and the
tool handler stores exactly one new resource whose content is that artifact
and whose MIME type is `text/markdown`. -/
theorem C2_renderer_failure_stored
    (render : String → Option String × Option String)
    (html_to_markdown : String → String) (rm : ResourceManager)
    (args : List (String × String)) (url : String) (now : Nat)
    (hurl : dictGet args "url" = some url)
    (hfail : (render (normalizeUrl url)).1 = none)
    (hfresh : dictGet rm.resources (mkUri rm.nextId) = none) :
    scrape render html_to_markdown url =
      "# Failed to retrieve content from " ++ normalizeUrl url ∧
    handle_call_tool render html_to_markdown rm "scrape_to_markdown"
      (some args) now =
      (CallToolResult.texts
        ["# Failed to retrieve content from " ++ normalizeUrl url],
       { rm with
          resources := rm.resources ++
            [(mkUri rm.nextId,
              ⟨url, "# Failed to retrieve content from " ++ normalizeUrl url,
               "text/markdown", now⟩)]
          nextId := rm.nextId + 1 }) := by
  have hs : scrape render html_to_markdown url =
      "# Failed to retrieve content from " ++ normalizeUrl url := by
    rcases hre : render (normalizeUrl url) with ⟨c, m⟩
    rw [hre] at hfail
    simp only at hfail
    subst hfail
    simp [scrape, hre]
  refine ⟨hs, ?_⟩
  simp [handle_call_tool, hurl, hs, add_resource, dictSet_fresh _ hfresh]

theorem C2_renderer_failure_stored_witness :
    handle_call_tool (fun _ => (none, none)) (fun c => c) initRM
      "scrape_to_markdown" (some [("url", "example.com")]) 7 =
      (CallToolResult.texts
        ["# Failed to retrieve content from https://example.com"],
       { resources :=
           [("scrape://0",
             ⟨"example.com",
              "# Failed to retrieve content from https://example.com",
              "text/markdown", 7⟩)],
         subscriptions := [], nextId := 1 }) :=
  (C2_renderer_failure_stored (fun _ => (none, none)) (fun c => c) initRM
    [("url", "example.com")] "example.com" 7 (by decide) rfl (by decide)).2

/-- C1 is false as stated: for the content `"see <p> here"` with no
content-kind hint, none of the claim's six patterns (doctype, html, head,
body, div, anchor) matches, yet `scrape` selects the HTML conversion path —
because of the source's additional `<p>` pattern — instead of returning the
fenced artifact required by the claim. -/
theorem C1_classification_counterexample :
    claimed_looks_like_html "see <p> here" = false ∧
    looks_like_html "see <p> here" = true ∧
    scrape (fun _ => (some "see <p> here", none)) (fun _ => "CONVERTED")
      "example.com" = "CONVERTED" ∧
    "CONVERTED" ≠ "```\nsee <p> here\n```" :=
  ⟨by decide, by decide, by decide, by decide⟩

/-- C1 (amended): when the renderer returns non-empty content, a content-kind
hint indicating HTML selects the HTML conversion path; otherwise the content
is inspected case-insensitively for the HTML-indicative patterns — doctype,
html tag, head tag, body tag, div tag, paragraph tag (`<p>`, present in the
source but omitted by the claim) and anchor tag — and if none matches, the
raw content is returned wrapped in a fenced code block. -/
theorem C1_classification_amended
    (render : String → Option String × Option String)
    (html_to_markdown : String → String) (url content : String)
    (m? : Option String) (hr : render (normalizeUrl url) = (some content, m?))
    (hne : content ≠ "") :
    ((∃ m, m? = some m ∧ strStartsWith m "text/html" = true) →
      scrape render html_to_markdown url = html_to_markdown content) ∧
    (m? = none → looks_like_html content = false →
      scrape render html_to_markdown url = "```\n" ++ content ++ "\n```") ∧
    (∀ m, m? = some m → strStartsWith m "text/html" = false →
      looks_like_html content = false →
      scrape render html_to_markdown url = "```\n" ++ content ++ "\n```") := by
  refine ⟨?_, ?_, ?_⟩
  · rintro ⟨m, rfl, hm⟩
    simp [scrape, hr, hne, hm]
  · rintro rfl hl
    simp [scrape, hr, hne, hl]
  · rintro m rfl hm _
    simp [scrape, hr, hne, hm]

theorem C1_classification_amended_witness :
    scrape (fun _ => (some "<html><body>x", some "text/html"))
      (fun c => "MD:" ++ c) "example.com" = "MD:<html><body>x" ∧
    scrape (fun _ => (some "plain text", none)) (fun c => "MD:" ++ c)
      "example.com" = "```\nplain text\n```" ∧
    scrape (fun _ => (some "just words", some "text/plain"))
      (fun c => "MD:" ++ c) "example.com" = "```\njust words\n```" :=
  ⟨(C1_classification_amended (fun _ => (some "<html><body>x", some "text/html"))
      (fun c => "MD:" ++ c) "example.com" "<html><body>x" (some "text/html")
      rfl (by decide)).1 ⟨"text/html", rfl, by decide⟩,
   (C1_classification_amended (fun _ => (some "plain text", none))
      (fun c => "MD:" ++ c) "example.com" "plain text" none
      rfl (by decide)).2.1 rfl (by decide),
   (C1_classification_amended (fun _ => (some "just words", some "text/plain"))
      (fun c => "MD:" ++ c) "example.com" "just words" (some "text/plain")
      rfl (by decide)).2.2 "text/plain" rfl (by decide) (by decide)⟩

/-! ### Invariants over operation sequences -/

theorem foldl_preserve {σ β : Type} (P : σ → Prop) (f : σ → β → σ)
    (hstep : ∀ s b, P s → P (f s b)) :
    ∀ (l : List β) (s : σ), P s → P (l.foldl f s) := by
  intro l
  induction l with
  | nil => exact fun s h => h
  | cons b rest ih => exact fun s h => ih (f s b) (hstep s b h)

theorem update_subscriptions_eq (rm : ResourceManager)
    (uri content mime_type : String) (now : Nat) :
    (update_resource rm uri content mime_type now).2.subscriptions =
      rm.subscriptions := by
  cases hres : dictGet rm.resources uri <;> simp [update_resource, hres]

theorem subsNonempty_applyOp (rm : ResourceManager) (op : Op)
    (h : SubsNonempty rm) : SubsNonempty (applyOp rm op) := by
  cases op with
  | add url content mime t => exact h
  | get uri => exact h
  | list => exact h
  | update uri content mime t =>
    intro u subs hs
    rw [show applyOp rm (Op.update uri content mime t) =
        (update_resource rm uri content mime t).2 from rfl,
      update_subscriptions_eq] at hs
    exact h u subs hs
  | cleanup =>
    intro u subs hs
    exact Option.noConfusion hs
  | sub uri sid =>
    intro u subs hs
    by_cases hres : (dictGet rm.resources uri).isNone
    · rw [show applyOp rm (Op.sub uri sid) = (subscribe rm uri sid).2 from rfl,
        show (subscribe rm uri sid).2 = rm from by simp [subscribe, hres]] at hs
      exact h u subs hs
    · cases hs0 : dictGet rm.subscriptions uri with
      | none =>
        rw [show applyOp rm (Op.sub uri sid) = (subscribe rm uri sid).2 from rfl,
          show (subscribe rm uri sid).2.subscriptions =
            dictSet rm.subscriptions uri [sid] from by
              simp [subscribe, hres, hs0],
          dictGet_dictSet] at hs
        by_cases he : uri = u
        · rw [if_pos he] at hs
          injection hs with hs
          subst hs
          simp
        · rw [if_neg he] at hs
          exact h u subs hs
      | some l =>
        by_cases hmem : sid ∈ l
        · rw [show applyOp rm (Op.sub uri sid) = (subscribe rm uri sid).2 from rfl,
            show (subscribe rm uri sid).2 = rm from by
              simp [subscribe, hres, hs0, hmem, dictSet_eq_of_get hs0]] at hs
          exact h u subs hs
        · rw [show applyOp rm (Op.sub uri sid) = (subscribe rm uri sid).2 from rfl,
            show (subscribe rm uri sid).2.subscriptions =
              dictSet rm.subscriptions uri (l ++ [sid]) from by
                simp [subscribe, hres, hs0, hmem],
            dictGet_dictSet] at hs
          by_cases he : uri = u
          · rw [if_pos he] at hs
            injection hs with hs
            subst hs
            simp
          · rw [if_neg he] at hs
            exact h u subs hs
  | unsub uri sid =>
    intro u subs hs
    cases hs0 : dictGet rm.subscriptions uri with
    | none =>
      rw [show applyOp rm (Op.unsub uri sid) = (unsubscribe rm uri sid).2 from rfl,
        show (unsubscribe rm uri sid).2 = rm from by simp [unsubscribe, hs0]] at hs
      exact h u subs hs
    | some l =>
      by_cases hmem : sid ∈ l
      · by_cases hnil : l.erase sid = []
        · rw [show applyOp rm (Op.unsub uri sid) = (unsubscribe rm uri sid).2 from rfl,
            show (unsubscribe rm uri sid).2.subscriptions =
              dictRemove rm.subscriptions uri from by
                simp [unsubscribe, hs0, hmem, hnil],
            dictGet_dictRemove] at hs
          by_cases he : uri = u
          · rw [if_pos he] at hs
            exact Option.noConfusion hs
          · rw [if_neg he] at hs
            exact h u subs hs
        · rw [show applyOp rm (Op.unsub uri sid) = (unsubscribe rm uri sid).2 from rfl,
            show (unsubscribe rm uri sid).2.subscriptions =
              dictSet rm.subscriptions uri (l.erase sid) from by
                simp [unsubscribe, hs0, hmem, hnil],
            dictGet_dictSet] at hs
          by_cases he : uri = u
          · rw [if_pos he] at hs
            injection hs with hs
            subst hs
            exact hnil
          · rw [if_neg he] at hs
            exact h u subs hs
      · rw [show applyOp rm (Op.unsub uri sid) = (unsubscribe rm uri sid).2 from rfl,
          show (unsubscribe rm uri sid).2 = rm from by
            simp [unsubscribe, hs0, hmem]] at hs
        exact h u subs hs

/-- C7: in every registry state reachable from the empty registry by the
registry operations (add, get, list, subscribe, unsubscribe, update,
cleanup), a subscription entry exists for an identity only with a non-empty
subscriber list — the entry is removed the moment it would become empty. -/
theorem C7_no_empty_subscription_entries (ops : List Op) (uri : String)
    (subs : List String)
    (h : dictGet (runOps initRM ops).subscriptions uri = some subs) :
    subs ≠ [] := by
  have hinv : SubsNonempty (runOps initRM ops) :=
    foldl_preserve SubsNonempty applyOp subsNonempty_applyOp ops initRM
      (fun u s hs => Option.noConfusion hs)
  exact hinv uri subs h

theorem C7_no_empty_subscription_entries_witness :
    dictGet (runOps initRM
      [Op.add "u" "c" "m" 0, Op.sub "scrape://0" "s1"]).subscriptions
      "scrape://0" = some ["s1"] ∧ (["s1"] : List String) ≠ [] :=
  ⟨by decide,
   C7_no_empty_subscription_entries
     [Op.add "u" "c" "m" 0, Op.sub "scrape://0" "s1"] "scrape://0" ["s1"]
     (by decide)⟩

theorem subsNodup_applyOp (rm : ResourceManager) (op : Op)
    (h : SubsNodup rm) : SubsNodup (applyOp rm op) := by
  cases op with
  | add url content mime t => exact h
  | get uri => exact h
  | list => exact h
  | update uri content mime t =>
    intro u subs hs
    rw [show applyOp rm (Op.update uri content mime t) =
        (update_resource rm uri content mime t).2 from rfl,
      update_subscriptions_eq] at hs
    exact h u subs hs
  | cleanup =>
    intro u subs hs
    exact Option.noConfusion hs
  | sub uri sid =>
    intro u subs hs
    by_cases hres : (dictGet rm.resources uri).isNone
    · rw [show applyOp rm (Op.sub uri sid) = (subscribe rm uri sid).2 from rfl,
        show (subscribe rm uri sid).2 = rm from by simp [subscribe, hres]] at hs
      exact h u subs hs
    · cases hs0 : dictGet rm.subscriptions uri with
      | none =>
        rw [show applyOp rm (Op.sub uri sid) = (subscribe rm uri sid).2 from rfl,
          show (subscribe rm uri sid).2.subscriptions =
            dictSet rm.subscriptions uri [sid] from by
              simp [subscribe, hres, hs0],
          dictGet_dictSet] at hs
        by_cases he : uri = u
        · rw [if_pos he] at hs
          injection hs with hs
          subst hs
          simp
        · rw [if_neg he] at hs
          exact h u subs hs
      | some l =>
        by_cases hmem : sid ∈ l
        · rw [show applyOp rm (Op.sub uri sid) = (subscribe rm uri sid).2 from rfl,
            show (subscribe rm uri sid).2 = rm from by
              simp [subscribe, hres, hs0, hmem, dictSet_eq_of_get hs0]] at hs
          exact h u subs hs
        · rw [show applyOp rm (Op.sub uri sid) = (subscribe rm uri sid).2 from rfl,
            show (subscribe rm uri sid).2.subscriptions =
              dictSet rm.subscriptions uri (l ++ [sid]) from by
                simp [subscribe, hres, hs0, hmem],
            dictGet_dictSet] at hs
          by_cases he : uri = u
          · rw [if_pos he] at hs
            injection hs with hs
            subst hs
            exact nodup_concat_of (h uri l hs0) hmem
          · rw [if_neg he] at hs
            exact h u subs hs
  | unsub uri sid =>
    intro u subs hs
    cases hs0 : dictGet rm.subscriptions uri with
    | none =>
      rw [show applyOp rm (Op.unsub uri sid) = (unsubscribe rm uri sid).2 from rfl,
        show (unsubscribe rm uri sid).2 = rm from by simp [unsubscribe, hs0]] at hs
      exact h u subs hs
    | some l =>
      by_cases hmem : sid ∈ l
      · by_cases hnil : l.erase sid = []
        · rw [show applyOp rm (Op.unsub uri sid) = (unsubscribe rm uri sid).2 from rfl,
            show (unsubscribe rm uri sid).2.subscriptions =
              dictRemove rm.subscriptions uri from by
                simp [unsubscribe, hs0, hmem, hnil],
            dictGet_dictRemove] at hs
          by_cases he : uri = u
          · rw [if_pos he] at hs
            exact Option.noConfusion hs
          · rw [if_neg he] at hs
            exact h u subs hs
        · rw [show applyOp rm (Op.unsub uri sid) = (unsubscribe rm uri sid).2 from rfl,
            show (unsubscribe rm uri sid).2.subscriptions =
              dictSet rm.subscriptions uri (l.erase sid) from by
                simp [unsubscribe, hs0, hmem, hnil],
            dictGet_dictSet] at hs
          by_cases he : uri = u
          · rw [if_pos he] at hs
            injection hs with hs
            subst hs
            exact (h uri l hs0).erase sid
          · rw [if_neg he] at hs
            exact h u subs hs
      · rw [show applyOp rm (Op.unsub uri sid) = (unsubscribe rm uri sid).2 from rfl,
          show (unsubscribe rm uri sid).2 = rm from by
            simp [unsubscribe, hs0, hmem]] at hs
        exact h u subs hs

/-- C9: in every registry state reachable from the empty registry by the
registry operations, each identity's subscriber list — though stored as a
list rather than a set — contains each subscriber token at most once. -/
theorem C9_subscriber_lists_nodup (ops : List Op) (uri : String)
    (subs : List String)
    (h : dictGet (runOps initRM ops).subscriptions uri = some subs) :
    subs.Nodup := by
  have hinv : SubsNodup (runOps initRM ops) :=
    foldl_preserve SubsNodup applyOp subsNodup_applyOp ops initRM
      (fun u s hs => Option.noConfusion hs)
  exact hinv uri subs h

theorem C9_subscriber_lists_nodup_witness :
    dictGet (runOps initRM
      [Op.add "u" "c" "m" 0, Op.sub "scrape://0" "s1",
       Op.sub "scrape://0" "s1"]).subscriptions "scrape://0" = some ["s1"] ∧
    (["s1"] : List String).Nodup :=
  ⟨by decide,
   C9_subscriber_lists_nodup
     [Op.add "u" "c" "m" 0, Op.sub "scrape://0" "s1", Op.sub "scrape://0" "s1"]
     "scrape://0" ["s1"] (by decide)⟩

/-! ### The add/update trace invariant for claim C3 -/

theorem traceInv_wstep (s : TraceState) (op : WOp) (h : TraceInv s) :
    TraceInv (wstep s op) := by
  obtain ⟨hnd, hout, hkeys, hmap, hpres⟩ := h
  cases op with
  | wadd url content mime t =>
    have hw : wstep s (WOp.wadd url content mime t) =
        ⟨{ s.rm with
             resources := dictSet s.rm.resources (mkUri s.rm.nextId)
               ⟨url, content, mime, t⟩
             nextId := s.rm.nextId + 1 },
         s.outs ++ [mkUri s.rm.nextId],
         dictSet s.written (mkUri s.rm.nextId) content⟩ := rfl
    rw [hw]
    have hfreshOut : mkUri s.rm.nextId ∉ s.outs := by
      intro hin
      obtain ⟨i, hi, hEq⟩ := hout _ hin
      have := mkUri_inj hEq
      omega
    refine ⟨nodup_concat_of hnd hfreshOut, ?_, ?_, ?_, ?_⟩
    · intro uri hin
      rcases List.mem_append.mp hin with hin | hin
      · obtain ⟨i, hi, hEq⟩ := hout uri hin
        exact ⟨i, Nat.lt_succ_of_lt hi, hEq⟩
      · have huri : uri = mkUri s.rm.nextId := by simpa using hin
        exact ⟨s.rm.nextId, Nat.lt_succ_self _, huri⟩
    · intro uri r hget
      rw [dictGet_dictSet] at hget
      by_cases he : mkUri s.rm.nextId = uri
      · exact ⟨s.rm.nextId, Nat.lt_succ_self _, he.symm⟩
      · rw [if_neg he] at hget
        obtain ⟨i, hi, hEq⟩ := hkeys uri r hget
        exact ⟨i, Nat.lt_succ_of_lt hi, hEq⟩
    · intro uri
      rw [dictGet_dictSet, dictGet_dictSet]
      by_cases he : mkUri s.rm.nextId = uri
      · rw [if_pos he, if_pos he]; rfl
      · rw [if_neg he, if_neg he]; exact hmap uri
    · intro uri hin
      rw [dictGet_dictSet]
      by_cases he : mkUri s.rm.nextId = uri
      · rw [if_pos he]; exact Option.some_ne_none _
      · rw [if_neg he]
        rcases List.mem_append.mp hin with hin | hin
        · exact hpres uri hin
        · have huri : uri = mkUri s.rm.nextId := by simpa using hin
          exact absurd huri.symm he
  | wupd uri content mime t =>
    cases hres : dictGet s.rm.resources uri with
    | none =>
      have hw : wstep s (WOp.wupd uri content mime t) = s := by
        simp [wstep, update_resource, hres]
      rw [hw]
      exact ⟨hnd, hout, hkeys, hmap, hpres⟩
    | some r =>
      have hw : wstep s (WOp.wupd uri content mime t) =
          ⟨{ s.rm with
               resources := dictSet s.rm.resources uri
                 { r with content := content, mime_type := mime,
                          timestamp := t } },
           s.outs, dictSet s.written uri content⟩ := by
        simp [wstep, update_resource, hres]
      rw [hw]
      refine ⟨hnd, hout, ?_, ?_, ?_⟩
      · intro u r' hget
        rw [dictGet_dictSet] at hget
        by_cases he : uri = u
        · subst he; exact hkeys uri r hres
        · rw [if_neg he] at hget
          exact hkeys u r' hget
      · intro u
        rw [dictGet_dictSet, dictGet_dictSet]
        by_cases he : uri = u
        · rw [if_pos he, if_pos he]; rfl
        · rw [if_neg he, if_neg he]; exact hmap u
      · intro u hin
        rw [dictGet_dictSet]
        by_cases he : uri = u
        · rw [if_pos he]; exact Option.some_ne_none _
        · rw [if_neg he]; exact hpres u hin

theorem traceInv_init : TraceInv ⟨initRM, [], []⟩ := by
  refine ⟨List.nodup_nil, ?_, ?_, ?_, ?_⟩
  · intro uri hin; cases hin
  · intro uri r hget; exact Option.noConfusion hget
  · intro uri; rfl
  · intro uri hin; cases hin

theorem traceInv_run (ops : List WOp) : TraceInv (wrun ops) :=
  foldl_preserve TraceInv wstep traceInv_wstep ops ⟨initRM, [], []⟩ traceInv_init

/-- C3: along any sequence of `add_resource` calls (interleaved with
`update_resource` calls) starting from the empty registry, every `add`
returns an identity distinct from all identities returned by earlier adds,
and `get_resource` on each returned identity yields a resource whose content
is exactly the content most recently written for that identity — the content
passed to its `add`, or the content of the latest successful update, as
recorded by the trace's ghost `written` map. -/
theorem C3_add_distinct_get_last_written (ops : List WOp) :
    (wrun ops).outs.Nodup ∧
    ∀ uri, uri ∈ (wrun ops).outs →
      ∃ r, get_resource (wrun ops).rm uri = some r ∧
        dictGet (wrun ops).written uri = some r.content := by
  obtain ⟨hnd, _, _, hmap, hpres⟩ := traceInv_run ops
  refine ⟨hnd, fun uri hin => ?_⟩
  have hne := hpres uri hin
  cases hres : dictGet (wrun ops).rm.resources uri with
  | none => exact absurd hres hne
  | some r =>
    refine ⟨r, hres, ?_⟩
    have hm := hmap uri
    rw [hres] at hm
    simpa using hm

theorem C3_add_distinct_get_last_written_witness :
    (wrun [WOp.wadd "u" "c1" "m" 0,
           WOp.wupd "scrape://0" "c2" "m2" 1]).outs.Nodup ∧
    (∃ r, get_resource
        (wrun [WOp.wadd "u" "c1" "m" 0,
               WOp.wupd "scrape://0" "c2" "m2" 1]).rm "scrape://0" = some r ∧
      dictGet (wrun [WOp.wadd "u" "c1" "m" 0,
                     WOp.wupd "scrape://0" "c2" "m2" 1]).written "scrape://0" =
        some r.content) :=
  ⟨(C3_add_distinct_get_last_written
      [WOp.wadd "u" "c1" "m" 0, WOp.wupd "scrape://0" "c2" "m2" 1]).1,
   (C3_add_distinct_get_last_written
      [WOp.wadd "u" "c1" "m" 0, WOp.wupd "scrape://0" "c2" "m2" 1]).2
     "scrape://0" (by decide)⟩

end MCPScraper
